import Mathlib

/-!
# Verification of the tg-bot-demo session engine

A shallow embedding of the session lifecycle / pagination / ownership engine
of the `tg-bot-demo` repository (Go), together with theorems checking the
natural-language specification against it.

Modelling conventions:
* Go strings are modelled as `List Char` (sequences of runes); UTF-8 byte
  counts are recovered through `utf8Size`/`byteLen`.
* Timestamps (`time.Time`) are modelled as `Nat` nanoseconds since the Unix
  epoch; `time.Now()` and `uuid.New()` results are passed in as explicit
  parameters where the Go code calls them.
* The SQLite tables `sessions` and `active_sessions` are modelled as lists of
  rows; each SQL statement of `store_sqlite.go` becomes the corresponding
  pure list transformation.
* Go `error` values are modelled by `GoError`; `fmt.Errorf("...: %w", err)`
  becomes `GoError.wrapped`, and `errors.Is` becomes `errsIs`.
-/

/-- Go strings viewed as rune sequences. -/
abbrev Str := List Char

deriving instance DecidableEq for Except

/-- Model of Go `error` values as used by the session package:
the two sentinel errors of `config.go` (`ErrSessionNotFound`,
`ErrUnauthorized`), `fmt.Errorf("msg: %w", cause)` wrapping, and any other
engine-level error. -/
inductive GoError where
  | sessionNotFound
  | unauthorized
  | wrapped (msg : Str) (cause : GoError)
  | other (msg : Str)
deriving Repr, DecidableEq

/-- Model of Go `errors.Is`: walk the `%w` wrapping chain. -/
def errsIs : GoError → GoError → Bool
  | e, t =>
    (e = t) ||
      match e with
      | .wrapped _ c => errsIs c t
      | _ => false

/-- The `Session` record of `config.go` (`session` package). -/
structure Session where
  id : Str
  userID : Int
  title : Str
  createdAt : Nat
  updatedAt : Nat
  lastMessage : Str
deriving Repr, DecidableEq

/-- State of the SQLite store: the `sessions` table and the
`active_sessions` table (`user_id PRIMARY KEY, session_id`). -/
structure StoreState where
  sessions : List Session
  active : List (Int × Str)
deriving Repr, DecidableEq

/-! ## Title generation (`generateTitle` in `config.go`) -/

/-- Go `unicode.IsSpace`: the Unicode White_Space code points. -/
def goIsSpace (c : Char) : Bool :=
  c = ' ' || c = '\t' || c = '\n' || c = '\x0b' || c = '\x0c' || c = '\r' ||
  c.toNat = 0x85 || c.toNat = 0xA0 || c.toNat = 0x1680 ||
  (0x2000 ≤ c.toNat && c.toNat ≤ 0x200A) ||
  c.toNat = 0x2028 || c.toNat = 0x2029 || c.toNat = 0x202F ||
  c.toNat = 0x205F || c.toNat = 0x3000

/-- Go `strings.TrimSpace`: drop leading and trailing whitespace runes. -/
def goTrimSpace (s : Str) : Str :=
  ((s.dropWhile goIsSpace).reverse.dropWhile goIsSpace).reverse

/-- Helper for `goFields`: accumulate the current word (reversed). -/
def goFieldsAux : Str → Str → List Str
  | [], acc => if acc.isEmpty then [] else [acc.reverse]
  | c :: cs, acc =>
    if goIsSpace c then
      if acc.isEmpty then goFieldsAux cs [] else acc.reverse :: goFieldsAux cs []
    else goFieldsAux cs (c :: acc)

/-- Go `strings.Fields`: split around runs of whitespace. -/
def goFields (s : Str) : List Str := goFieldsAux s []

/-- Go `strings.Join(words, " ")`. -/
def joinSpace : List Str → Str
  | [] => []
  | [w] => w
  | w :: ws => w ++ ' ' :: joinSpace ws

/-- `generateTitle` from `config.go`.  The Go code reads the wall clock in the
empty-message branch (`time.Now().Format("15:04")`); that formatted clock
string is passed in as the `clock` parameter. -/
def generateTitle (clock : Str) (message : Str) : Str :=
  -- Remove leading/trailing whitespace
  let message := goTrimSpace message
  -- Handle empty or whitespace-only messages
  if message = [] then "New Session ".toList ++ clock
  else
    -- Replace newlines with spaces
    let message := message.map (fun c => if c = '\n' then ' ' else c)
    let message := message.map (fun c => if c = '\r' then ' ' else c)
    -- Collapse multiple spaces
    let message := joinSpace (goFields message)
    -- Truncate to 30 characters, but use full message if < 10 chars
    if message.length ≤ 10 then message
    else if message.length > 30 then message.take 30 ++ "...".toList
    else message

/-- `NewSession` from `config.go`: fresh UUID and wall-clock time are passed
in as `freshID` / `now` / `clock`. -/
def newSession (freshID : Str) (clock : Str) (now : Nat) (userID : Int)
    (firstMessage : Str) : Session :=
  { id := freshID
    userID := userID
    title := generateTitle clock firstMessage
    createdAt := now
    updatedAt := now
    lastMessage := firstMessage }

/-! ## SQLite store (`store_sqlite.go`) -/

/-- Row lookup by session id (`WHERE id = ?`, id is PRIMARY KEY). -/
def findSession (rows : List Session) (id : Str) : Option Session :=
  rows.find? (fun s => s.id = id)

/-- `SQLiteStore.Create`: `INSERT INTO sessions ...`; a duplicate primary key
makes the insert fail, which `Create` wraps into
`failed to create session: %w`. -/
def storeCreate (st : StoreState) (s : Session) : Except GoError StoreState :=
  if st.sessions.any (fun t => t.id = s.id) then
    .error (.wrapped "failed to create session".toList
      (.other "UNIQUE constraint failed: sessions.id".toList))
  else
    .ok { st with sessions := st.sessions ++ [s] }

/-- `SQLiteStore.Get`: `SELECT ... WHERE id = ?`; no row yields
`ErrSessionNotFound`. -/
def storeGet (st : StoreState) (id : Str) : Except GoError Session :=
  match findSession st.sessions id with
  | none => .error .sessionNotFound
  | some s => .ok s

/-- `SQLiteStore.Update`: `UPDATE sessions SET title = ?, updated_at = ?,
last_message = ? WHERE id = ?`; zero affected rows yields
`ErrSessionNotFound`.  The stored `updated_at` is set to exactly the
caller-supplied value. -/
def storeUpdate (st : StoreState) (u : Session) : Except GoError StoreState :=
  if st.sessions.any (fun t => t.id = u.id) then
    .ok { st with
      sessions := st.sessions.map (fun t =>
        if t.id = u.id then
          { t with title := u.title, updatedAt := u.updatedAt,
                   lastMessage := u.lastMessage }
        else t) }
  else
    .error .sessionNotFound

/-- `SQLiteStore.Delete`: `DELETE FROM sessions WHERE id = ?`; zero affected
rows yields `ErrSessionNotFound`.  `active_sessions` has
`FOREIGN KEY (session_id) REFERENCES sessions(id) ON DELETE CASCADE`, so
pointers at the deleted session are removed as well. -/
def storeDelete (st : StoreState) (id : Str) : Except GoError StoreState :=
  if st.sessions.any (fun t => t.id = id) then
    .ok { sessions := st.sessions.filter (fun t => ¬ t.id = id)
          active := st.active.filter (fun p => ¬ p.2 = id) }
  else
    .error .sessionNotFound

/-- Insert one session into a list kept in `updated_at DESC` order. -/
def insertByUpdatedDesc (s : Session) : List Session → List Session
  | [] => [s]
  | t :: ts =>
    if s.updatedAt ≤ t.updatedAt then t :: insertByUpdatedDesc s ts
    else s :: t :: ts

/-- `ORDER BY updated_at DESC` (insertion sort; SQLite leaves the order of
ties unspecified, this model picks one deterministic order). -/
def sortByUpdatedDesc : List Session → List Session
  | [] => []
  | s :: ss => insertByUpdatedDesc s (sortByUpdatedDesc ss)

/-- `SQLiteStore.ListByUser`: `SELECT ... WHERE user_id = ? ORDER BY
updated_at DESC LIMIT ? OFFSET ?`.  SQLite treats a negative OFFSET as 0 and
a negative LIMIT as "no limit". -/
def listByUser (st : StoreState) (userID : Int) (offset limit : Int) :
    List Session :=
  let rows := sortByUpdatedDesc (st.sessions.filter (fun s => s.userID = userID))
  let rows := rows.drop offset.toNat
  if limit < 0 then rows else rows.take limit.toNat

/-- `SQLiteStore.CountByUser`: `SELECT COUNT(*) FROM sessions WHERE
user_id = ?` (a Go `int`). -/
def countByUser (st : StoreState) (userID : Int) : Int :=
  ((st.sessions.filter (fun s => s.userID = userID)).length : Int)

/-- Lookup in the `active_sessions` table (`user_id` is the primary key). -/
def lookupActive (st : StoreState) (userID : Int) : Option Str :=
  (st.active.find? (fun p => p.1 = userID)).map (fun p => p.2)

/-- `SQLiteStore.GetActiveSession`: join of `active_sessions` with
`sessions`; no joined row yields `ErrSessionNotFound`. -/
def storeGetActiveSession (st : StoreState) (userID : Int) :
    Except GoError Session :=
  match lookupActive st userID with
  | none => .error .sessionNotFound
  | some sid =>
    match findSession st.sessions sid with
    | none => .error .sessionNotFound
    | some s => .ok s

/-- `SQLiteStore.SetActiveSession`: `INSERT ... ON CONFLICT(user_id) DO
UPDATE SET session_id = excluded.session_id` (atomic upsert). -/
def setActiveSession (st : StoreState) (userID : Int) (sessionID : Str) :
    StoreState :=
  if st.active.any (fun p => p.1 = userID) then
    { st with active := st.active.map (fun p =>
        if p.1 = userID then (userID, sessionID) else p) }
  else
    { st with active := st.active ++ [(userID, sessionID)] }

/-- `SQLiteStore.ClearActiveSession`: `DELETE FROM active_sessions WHERE
user_id = ?` (idempotent, never an error). -/
def clearActiveSession (st : StoreState) (userID : Int) : StoreState :=
  { st with active := st.active.filter (fun p => ¬ p.1 = userID) }

/-! ## Session manager (`config.go`) -/

/-- `Manager.ListSessions`: delegates to `ListByUser` and `CountByUser`;
`hasMore := offset+limit < total`.  The store calls cannot fail in this
model, so the result is always `ok`. -/
def listSessions (st : StoreState) (userID : Int) (offset limit : Int) :
    Except GoError (List Session × Bool) :=
  let sessions := listByUser st userID offset limit
  let total := countByUser st userID
  .ok (sessions, decide (offset + limit < total))

/-- `Manager.SwitchSession`: `Get`, ownership check, then
`SetActiveSession`.  Returns the result together with the store state after
the call. -/
def switchSession (st : StoreState) (userID : Int) (sessionID : Str) :
    Except GoError Session × StoreState :=
  match storeGet st sessionID with
  | .error e => (.error (.wrapped "failed to get session".toList e), st)
  | .ok s =>
    if s.userID ≠ userID then (.error .unauthorized, st)
    else (.ok s, setActiveSession st userID sessionID)

/-- `Manager.CreateSession`: construct via `NewSession`, persist via
`Create`, then `SetActiveSession`. -/
def createSession (st : StoreState) (freshID : Str) (clock : Str) (now : Nat)
    (userID : Int) (message : Str) : Except GoError Session × StoreState :=
  let s := newSession freshID clock now userID message
  match storeCreate st s with
  | .error e => (.error (.wrapped "failed to create session".toList e), st)
  | .ok st1 => (.ok s, setActiveSession st1 userID s.id)

/-- `Manager.GetOrCreateActiveSession`: `GetActiveSession`; on any failure,
fall back to `CreateSession`. -/
def getOrCreateActiveSession (st : StoreState) (freshID : Str) (clock : Str)
    (now : Nat) (userID : Int) (message : Str) :
    Except GoError Session × StoreState :=
  match storeGetActiveSession st userID with
  | .ok s => (.ok s, st)
  | .error _ => createSession st freshID clock now userID message

/-- Modelled from the spec: the body of `Manager.CloseActiveSession` is
absent from the sources (only its test `TestManager_CloseActiveSession` and
its caller `CloseCommandHandler` exist).  Spec 4.4: looks up the active
session; if none, returns `(absent, false)` with no error; if present,
clears the pointer and returns `(that session, true)`; does not delete or
mutate the session itself. -/
def closeActiveSession (st : StoreState) (userID : Int) :
    Except GoError (Option Session × Bool) × StoreState :=
  match storeGetActiveSession st userID with
  | .error .sessionNotFound => (.ok (none, false), st)
  | .error e => (.error e, st)
  | .ok s => (.ok (some s, true), clearActiveSession st userID)

/-! ## Button / pagination codec (`handlers` package) -/

/-- One decimal digit as a character (the digit table used by `fmt`'s
`%d` verb). -/
def digitChar (d : Nat) : Char :=
  match d with
  | 0 => '0' | 1 => '1' | 2 => '2' | 3 => '3' | 4 => '4'
  | 5 => '5' | 6 => '6' | 7 => '7' | 8 => '8' | 9 => '9'
  | _ => '*'

/-- Decimal rendering of a natural number (most significant digit first),
as produced by `fmt.Sprintf("%d", n)` for `n ≥ 0`. -/
def natDigitChars (n : Nat) : List Char :=
  if n < 10 then [digitChar n]
  else natDigitChars (n / 10) ++ [digitChar (n % 10)]
termination_by n
decreasing_by exact Nat.div_lt_self (by omega) (by omega)

/-- `fmt.Sprintf("%d", n)` for a Go integer. -/
def intRepr (n : Int) : Str :=
  if n < 0 then '-' :: natDigitChars (-n).toNat else natDigitChars n.toNat

/-- UTF-8 byte count of one code point. -/
def utf8Size (c : Char) : Nat :=
  if c.toNat < 0x80 then 1
  else if c.toNat < 0x800 then 2
  else if c.toNat < 0x10000 then 3
  else 4

/-- UTF-8 byte count of a Go string (Go `len(s)`). -/
def byteLen (s : Str) : Nat := (s.map utf8Size).sum

/-- `truncate` from the `handlers` package: rune-count based truncation. -/
def truncate (s : Str) (maxLen : Nat) : Str :=
  if s.length ≤ maxLen then s
  else s.take (maxLen - 3) ++ "...".toList

/-- Nanoseconds per `time.Minute` / `time.Hour` / 24h day. -/
def nsPerMinute : Nat := 60000000000
def nsPerHour : Nat := 3600000000000
def nsPerDay : Nat := 86400000000000

/-- Month abbreviations used by Go's `"Jan 2"` layout. -/
def monthName (m : Nat) : Str :=
  match m with
  | 1 => "Jan".toList | 2 => "Feb".toList | 3 => "Mar".toList
  | 4 => "Apr".toList | 5 => "May".toList | 6 => "Jun".toList
  | 7 => "Jul".toList | 8 => "Aug".toList | 9 => "Sep".toList
  | 10 => "Oct".toList | 11 => "Nov".toList | 12 => "Dec".toList
  | _ => "???".toList

/-- `t.Format("Jan 2")` (UTC): civil date from days since the Unix epoch
(standard days-to-civil algorithm), rendered as month abbreviation and
day-of-month without a leading zero. -/
def formatMonthDay (t : Nat) : Str :=
  let z := t / nsPerDay + 719468
  let doe := z % 146097
  let yoe := (doe - doe / 1460 + doe / 36524 - doe / 146096) / 365
  let doy := doe - (365 * yoe + yoe / 4 - yoe / 100)
  let mp := (5 * doy + 2) / 153
  let d := doy - (153 * mp + 2) / 5 + 1
  let m := if mp < 10 then mp + 3 else mp - 9
  monthName m ++ ' ' :: natDigitChars d

/-- `formatTimeAgo` from the `handlers` package.  `time.Since(t)` is the
current wall clock (`now`) minus `t`; a `t` in the future gives a negative
duration in Go and hits the `"just now"` branch, as does the truncated `0`
of this `Nat` model. -/
def formatTimeAgo (now t : Nat) : Str :=
  let duration := now - t
  if duration < nsPerMinute then "just now".toList
  else if duration < nsPerHour then
    natDigitChars (duration / nsPerMinute) ++ "m ago".toList
  else if duration < 24 * nsPerHour then
    natDigitChars (duration / nsPerHour) ++ "h ago".toList
  else if duration < 7 * nsPerDay then
    natDigitChars (duration / nsPerDay) ++ "d ago".toList
  else formatMonthDay t

/-- `formatSessionButton`: `"Title - 2h ago"`. -/
def formatSessionButton (now : Nat) (s : Session) : Str :=
  truncate s.title 40 ++ " - ".toList ++ formatTimeAgo now s.updatedAt

/-- A Telegram inline keyboard button (`models.InlineKeyboardButton`):
only the fields the handlers set. -/
structure InlineKeyboardButton where
  text : Str
  callbackData : Str
deriving Repr, DecidableEq

/-- `buildSessionKeyboard` from the `handlers` package (the five-argument
version used by `handlers.go`): optional previous-page navigation row, one
row per session, optional next-page navigation row.  The source's navigation
label constants are corrupted-encoding renderings of "↑ Prev" / "↓ Next";
the labels play no role in any claim. -/
def buildSessionKeyboard (sessions : List Session) (offset : Int)
    (hasPrev hasNext : Bool) (sessionsPerPage : Int) (now : Nat) :
    List (List InlineKeyboardButton) :=
  let prevRows : List (List InlineKeyboardButton) :=
    if hasPrev then
      let prevOffset := offset - sessionsPerPage
      let prevOffset := if prevOffset < 0 then 0 else prevOffset
      [[{ text := "↑ Prev".toList
          callbackData := "page_sessions_".toList ++ intRepr prevOffset }]]
    else []
  let sessionRows : List (List InlineKeyboardButton) :=
    sessions.map (fun s =>
      [{ text := formatSessionButton now s
         callbackData := "open_s_".toList ++ s.id }])
  let nextRows : List (List InlineKeyboardButton) :=
    if hasNext then
      [[{ text := "↓ Next".toList
          callbackData := "page_sessions_".toList ++
            intRepr (offset + sessionsPerPage) }]]
    else []
  prevRows ++ sessionRows ++ nextRows

/-- The normalization step of `generateTitle` exactly as the spec phrases
it: line breaks (including carriage returns) replaced by spaces, then
whitespace runs collapsed to single spaces (split on whitespace and rejoin
with one space). -/
def normalizeTitle (t : Str) : Str :=
  joinSpace (goFields
    ((t.map (fun c => if c = '\n' then ' ' else c)).map
      (fun c => if c = '\r' then ' ' else c)))

/-! ## Example data used by the witness theorems -/

/-- A concrete session of user 1 (updated at 5). -/
def exS1 : Session :=
  { id := ['a'], userID := 1, title := ['t'], createdAt := 0, updatedAt := 5,
    lastMessage := ['m'] }

/-- A concrete session of user 1 (updated at 9). -/
def exS2 : Session :=
  { id := ['b'], userID := 1, title := ['u'], createdAt := 1, updatedAt := 9,
    lastMessage := ['n'] }

/-- A concrete session of user 2. -/
def exS3 : Session :=
  { id := ['c'], userID := 2, title := ['v'], createdAt := 2, updatedAt := 7,
    lastMessage := ['o'] }

/-- A concrete store with three sessions and user 1's pointer at `exS1`. -/
def exStore : StoreState :=
  { sessions := [exS1, exS2, exS3], active := [(1, ['a'])] }

/-- A concrete session with a canonical 36-character UUID id. -/
def exS4 : Session :=
  { id := "123e4567-e89b-12d3-a456-426614174000".toList
    userID := 1
    title := ['t']
    createdAt := 0
    updatedAt := 0
    lastMessage := [] }

/-! ## Helper lemmas -/

/-- The result of `ListByUser` is expected to be in non-increasing
`updatedAt` order (most recently updated first). -/
def SortedDesc (l : List Session) : Prop :=
  l.Pairwise (fun a b => b.updatedAt ≤ a.updatedAt)

theorem length_insertByUpdatedDesc (s : Session) (l : List Session) :
    (insertByUpdatedDesc s l).length = l.length + 1 := by
  induction l with
  | nil => rfl
  | cons t ts ih =>
    unfold insertByUpdatedDesc
    split
    · simpa using ih
    · rfl

theorem length_sortByUpdatedDesc (l : List Session) :
    (sortByUpdatedDesc l).length = l.length := by
  induction l with
  | nil => rfl
  | cons s ss ih =>
    unfold sortByUpdatedDesc
    rw [length_insertByUpdatedDesc, ih]
    rfl

theorem mem_insertByUpdatedDesc {a s : Session} {l : List Session} :
    a ∈ insertByUpdatedDesc s l ↔ a = s ∨ a ∈ l := by
  induction l with
  | nil => simp [insertByUpdatedDesc]
  | cons t ts ih =>
    unfold insertByUpdatedDesc
    split
    · rw [List.mem_cons, ih, List.mem_cons]
      tauto
    · rw [List.mem_cons]

theorem mem_sortByUpdatedDesc {a : Session} {l : List Session} :
    a ∈ sortByUpdatedDesc l ↔ a ∈ l := by
  induction l with
  | nil => simp [sortByUpdatedDesc]
  | cons s ss ih =>
    unfold sortByUpdatedDesc
    rw [mem_insertByUpdatedDesc, ih, List.mem_cons]

theorem sortedDesc_insertByUpdatedDesc {s : Session} {l : List Session}
    (h : SortedDesc l) : SortedDesc (insertByUpdatedDesc s l) := by
  induction l with
  | nil => simp [insertByUpdatedDesc, SortedDesc]
  | cons t ts ih =>
    rcases h with - | ⟨ht, hts⟩
    unfold insertByUpdatedDesc
    split
    · refine List.Pairwise.cons ?_ (ih hts)
      intro b hb
      rcases mem_insertByUpdatedDesc.mp hb with hb | hb
      · subst hb; assumption
      · exact ht b hb
    · refine List.Pairwise.cons ?_ (List.Pairwise.cons ht hts)
      intro b hb
      rcases List.mem_cons.mp hb with hb | hb
      · subst hb; omega
      · have := ht b hb; omega

theorem sortedDesc_sortByUpdatedDesc (l : List Session) :
    SortedDesc (sortByUpdatedDesc l) := by
  induction l with
  | nil => exact List.Pairwise.nil
  | cons s ss ih => exact sortedDesc_insertByUpdatedDesc ih

/-! ## Claim theorems -/

/-- C4: For every owner `U`, every offset and limit, and every store state,
`Store.ListByUser(U, offset, limit)` returns only sessions whose `ownerID`
equals `U`, and the returned sequence is sorted by `updatedAt` descending
(most recently updated first). -/
theorem listByUser_owner_only_sorted (st : StoreState) (u : Int)
    (offset limit : Int) :
    (∀ s ∈ listByUser st u offset limit, s.userID = u) ∧
      SortedDesc (listByUser st u offset limit) := by
  have hsub : List.Sublist (listByUser st u offset limit)
      (sortByUpdatedDesc (st.sessions.filter (fun s => s.userID = u))) := by
    unfold listByUser
    split
    · exact List.drop_sublist _ _
    · exact (List.take_sublist _ _).trans (List.drop_sublist _ _)
  constructor
  · intro s hs
    have hmem := hsub.mem hs
    have := mem_sortByUpdatedDesc.mp hmem
    have := List.mem_filter.mp this
    simpa using this.2
  · exact List.Pairwise.sublist hsub (sortedDesc_sortByUpdatedDesc _)

/-- C1: For every owner with `N` stored sessions and every `offset ≥ 0`,
`limit ≥ 1`, `Manager.ListSessions` returns exactly
`min(limit, max(0, N - offset))` sessions and `hasMore = (offset + limit <
N)`; an out-of-range offset yields an empty sequence, never an error. -/
theorem listSessions_pagination_spec (st : StoreState) (u : Int)
    (offset limit : Int) (hoff : 0 ≤ offset) (hlim : 1 ≤ limit) :
    ∃ lst hm, listSessions st u offset limit = .ok (lst, hm) ∧
      (lst.length : Int) = min limit (max 0 (countByUser st u - offset)) ∧
      (hm = true ↔ offset + limit < countByUser st u) ∧
      (countByUser st u ≤ offset → lst = []) := by
  refine ⟨listByUser st u offset limit, _, rfl, ?_, ?_, ?_⟩
  · have hlen : (listByUser st u offset limit).length =
        min limit.toNat
          ((st.sessions.filter (fun s => s.userID = u)).length - offset.toNat) := by
      unfold listByUser
      have hneg : ¬ limit < 0 := by omega
      simp [hneg, List.length_take, List.length_drop, length_sortByUpdatedDesc]
    rw [hlen]
    unfold countByUser
    omega
  · simp
  · intro hle
    have hlen : (listByUser st u offset limit).length =
        min limit.toNat
          ((st.sessions.filter (fun s => s.userID = u)).length - offset.toNat) := by
      unfold listByUser
      have hneg : ¬ limit < 0 := by omega
      simp [hneg, List.length_take, List.length_drop, length_sortByUpdatedDesc]
    have hN : countByUser st u =
        ((st.sessions.filter (fun s => s.userID = u)).length : Int) := rfl
    rw [hN] at hle
    have : (listByUser st u offset limit).length = 0 := by
      rw [hlen]; omega
    exact List.length_eq_zero.mp this

/-- Witness for C1 at a concrete store: user 1 has 2 sessions; with offset 1
and limit 2 the page has exactly 1 session and `hasMore` is false. -/
theorem listSessions_pagination_spec_witness :
    ∃ lst hm, listSessions exStore 1 1 2 = .ok (lst, hm) ∧
      (lst.length : Int) = min 2 (max 0 (countByUser exStore 1 - 1)) ∧
      (hm = true ↔ 1 + 2 < countByUser exStore 1) ∧
      (countByUser exStore 1 ≤ 1 → lst = []) :=
  listSessions_pagination_spec exStore 1 1 2 (by decide) (by decide)

/-- C2: For every owner `U` and every session `S` that exists but has
`S.ownerID ≠ U`, `Manager.SwitchSession(U, S.id)` fails with the
`Unauthorized` error (a value distinct from `NotFound`), and the store state
— in particular `U`'s active-session pointer — is left exactly as it was
before the call: the `SetActiveSession` write step is never reached. -/
theorem switchSession_unauthorized_preserves_state (st : StoreState) (u : Int)
    (s : Session) (hget : storeGet st s.id = .ok s) (hown : s.userID ≠ u) :
    switchSession st u s.id = (.error .unauthorized, st) ∧
      GoError.unauthorized ≠ GoError.sessionNotFound := by
  refine ⟨?_, by decide⟩
  simp only [switchSession, hget, if_pos hown]

/-- Witness for C2: user 1 asking to switch to user 2's session `exS3`
gets `Unauthorized` and the store (hence the pointer) is untouched. -/
theorem switchSession_unauthorized_preserves_state_witness :
    switchSession exStore 1 exS3.id = (.error .unauthorized, exStore) ∧
      GoError.unauthorized ≠ GoError.sessionNotFound :=
  switchSession_unauthorized_preserves_state exStore 1 exS3 (by decide)
    (by decide)

/-- C3: `generateTitle` trims whitespace; a whitespace-only input yields
`"New Session "` followed by the wall-clock `HH:MM` string; otherwise the
input is normalized (line breaks to spaces, whitespace runs collapsed) and
returned verbatim when its code-point count is ≤ 30 (in particular at
exactly 10 and exactly 30), while above 30 the first 30 code points plus the
3-character `"..."` marker (33 code points total) are returned. -/
theorem generateTitle_spec (clock s : Str) :
    (goTrimSpace s = [] →
      generateTitle clock s = "New Session ".toList ++ clock) ∧
    (goTrimSpace s ≠ [] →
      ((normalizeTitle (goTrimSpace s)).length ≤ 30 →
        generateTitle clock s = normalizeTitle (goTrimSpace s)) ∧
      (30 < (normalizeTitle (goTrimSpace s)).length →
        generateTitle clock s =
          (normalizeTitle (goTrimSpace s)).take 30 ++ "...".toList ∧
        (generateTitle clock s).length = 33)) := by
  constructor
  · intro h
    simp only [generateTitle, if_pos h]
  · intro h
    simp only [generateTitle, normalizeTitle, if_neg h]
    constructor
    · intro h30
      split_ifs with h10 hgt
      · rfl
      · omega
      · rfl
    · intro h30
      split_ifs with h10
      · omega
      · refine ⟨rfl, ?_⟩
        rw [List.length_append, List.length_take]
        have h3 : ("...".toList).length = 3 := by decide
        omega

/-- Witness for C3: a multi-line input is normalized and returned verbatim
(21 code points), and a whitespace-only input falls back to the
timestamped default title. -/
theorem generateTitle_spec_witness :
    generateTitle "12:34".toList "  Line 1\nLine 2\nLine 3  ".toList =
      normalizeTitle (goTrimSpace "  Line 1\nLine 2\nLine 3  ".toList) ∧
    generateTitle "12:34".toList "   \t  ".toList =
      "New Session ".toList ++ "12:34".toList := by
  constructor
  · exact ((generateTitle_spec "12:34".toList
      "  Line 1\nLine 2\nLine 3  ".toList).2 (by decide)).1 (by decide)
  · exact (generateTitle_spec "12:34".toList "   \t  ".toList).1 (by decide)

theorem find?_map_upsert (l : List (Int × Str)) (u : Int) (sid : Str)
    (h : l.any (fun p => p.1 = u) = true) :
    (l.map (fun p => if p.1 = u then (u, sid) else p)).find?
      (fun p => p.1 = u) = some (u, sid) := by
  induction l with
  | nil => simp at h
  | cons q l ih =>
    by_cases hq : q.1 = u
    · simp [hq]
    · rw [List.any_cons] at h
      have h2 : l.any (fun p => p.1 = u) = true := by
        simpa [hq] using h
      simp [hq, ih h2]

theorem find?_append_missing (l : List (Int × Str)) (u : Int) (sid : Str)
    (h : l.any (fun p => p.1 = u) = false) :
    (l ++ [(u, sid)]).find? (fun p => p.1 = u) = some (u, sid) := by
  induction l with
  | nil => simp
  | cons q l ih =>
    rw [List.any_cons, Bool.or_eq_false_iff] at h
    obtain ⟨hq, hl⟩ := h
    rw [List.cons_append, List.find?_cons_of_neg _ (by simpa using hq)]
    exact ih hl

theorem lookupActive_setActiveSession (st : StoreState) (u : Int) (sid : Str) :
    lookupActive (setActiveSession st u sid) u = some sid := by
  unfold lookupActive setActiveSession
  cases h : st.active.any (fun p => p.1 = u) with
  | true => simp [h, find?_map_upsert st.active u sid h]
  | false => simp [h, find?_append_missing st.active u sid h]

theorem sessions_setActiveSession (st : StoreState) (u : Int) (sid : Str) :
    (setActiveSession st u sid).sessions = st.sessions := by
  unfold setActiveSession
  split <;> rfl

theorem createSession_fresh (st : StoreState) (fid clock : Str) (now : Nat)
    (u : Int) (msg : Str)
    (hfresh : st.sessions.any (fun t => t.id = fid) = false) :
    createSession st fid clock now u msg =
      (.ok (newSession fid clock now u msg),
        setActiveSession
          { st with sessions := st.sessions ++ [newSession fid clock now u msg] }
          u fid) := by
  simp only [createSession, storeCreate, newSession, hfresh]
  simp

/-- C5: `Manager.GetOrCreateActiveSession(U, m)` returns the stored active
session unchanged whenever the lookup succeeds (creating nothing — the store
state is untouched), and on any lookup failure whatsoever it unconditionally
falls back to `CreateSession(U, m)`, which appends exactly one new session,
activates it (the pointer for `U` now names the fresh id), and returns it.
The freshness hypothesis models `uuid.New()` returning an unused id. -/
theorem getOrCreateActiveSession_spec (st : StoreState) (fid clock : Str)
    (now : Nat) (u : Int) (msg : Str)
    (hfresh : st.sessions.any (fun t => t.id = fid) = false) :
    (∀ s, storeGetActiveSession st u = .ok s →
        getOrCreateActiveSession st fid clock now u msg = (.ok s, st)) ∧
    (∀ e, storeGetActiveSession st u = .error e →
        getOrCreateActiveSession st fid clock now u msg =
          createSession st fid clock now u msg ∧
        ∃ st2, createSession st fid clock now u msg =
            (.ok (newSession fid clock now u msg), st2) ∧
          st2.sessions = st.sessions ++ [newSession fid clock now u msg] ∧
          lookupActive st2 u = some fid) := by
  constructor
  · intro s hs
    simp only [getOrCreateActiveSession, hs]
  · intro e he
    refine ⟨by simp only [getOrCreateActiveSession, he], ?_⟩
    refine ⟨setActiveSession
      { st with sessions := st.sessions ++ [newSession fid clock now u msg] }
      u fid, createSession_fresh st fid clock now u msg hfresh, ?_, ?_⟩
    · rw [sessions_setActiveSession]
    · exact lookupActive_setActiveSession _ u fid

/-- Witness for C5: user 3 of `exStore` has no active pointer, so the
fallback creates, activates and returns one fresh session. -/
theorem getOrCreateActiveSession_spec_witness :
    getOrCreateActiveSession exStore ['z'] ['1'] 10 3 ['h', 'i'] =
      createSession exStore ['z'] ['1'] 10 3 ['h', 'i'] ∧
    ∃ st2, createSession exStore ['z'] ['1'] 10 3 ['h', 'i'] =
        (.ok (newSession ['z'] ['1'] 10 3 ['h', 'i']), st2) ∧
      st2.sessions = exStore.sessions ++ [newSession ['z'] ['1'] 10 3 ['h', 'i']] ∧
      lookupActive st2 3 = some ['z'] :=
  (getOrCreateActiveSession_spec exStore ['z'] ['1'] 10 3 ['h', 'i']
    (by decide)).2 .sessionNotFound (by decide)

theorem find?_filter_out (l : List (Int × Str)) (u : Int) :
    (l.filter (fun p => ¬ p.1 = u)).find? (fun p => p.1 = u) = none := by
  induction l with
  | nil => rfl
  | cons q l ih =>
    by_cases hq : q.1 = u
    · simp [hq, ih]
    · simp [hq, ih]

theorem find?_filter_keep (l : List (Int × Str)) (u v : Int) (hne : v ≠ u) :
    (l.filter (fun p => ¬ p.1 = u)).find? (fun p => p.1 = v) =
      l.find? (fun p => p.1 = v) := by
  induction l with
  | nil => rfl
  | cons q l ih =>
    by_cases hq : q.1 = u
    · have hv : ¬ q.1 = v := by
        intro h2; apply hne; rw [← h2, hq]
      rw [List.filter_cons_of_neg (by simpa using hq),
        List.find?_cons_of_neg _ (by simpa using hv), ih]
    · rw [List.filter_cons_of_pos (by simpa using hq)]
      by_cases hv : q.1 = v
      · rw [List.find?_cons_of_pos _ (by simpa using hv),
          List.find?_cons_of_pos _ (by simpa using hv)]
      · rw [List.find?_cons_of_neg _ (by simpa using hv),
          List.find?_cons_of_neg _ (by simpa using hv), ih]

theorem lookupActive_clear_self (st : StoreState) (u : Int) :
    lookupActive (clearActiveSession st u) u = none := by
  unfold lookupActive clearActiveSession
  simp [find?_filter_out]

theorem lookupActive_clear_other (st : StoreState) (u v : Int) (hne : v ≠ u) :
    lookupActive (clearActiveSession st u) v = lookupActive st v := by
  have h := find?_filter_keep st.active u v hne
  unfold lookupActive clearActiveSession
  exact congrArg (Option.map fun p => p.2) h

theorem storeGet_of_storeGetActiveSession (st : StoreState) (u : Int)
    (s : Session) (h : storeGetActiveSession st u = .ok s) :
    storeGet st s.id = .ok s := by
  unfold storeGetActiveSession at h
  cases hl : lookupActive st u with
  | none =>
    simp only [hl] at h
    exact Except.noConfusion h
  | some sid =>
    simp only [hl] at h
    cases hf : findSession st.sessions sid with
    | none =>
      simp only [hf] at h
      exact Except.noConfusion h
    | some t =>
      simp only [hf] at h
      injection h with h2
      subst h2
      have hpred : t.id = sid := by
        have := List.find?_some hf
        simpa using this
      unfold storeGet
      rw [hpred, hf]

/-- C7: `Manager.CloseActiveSession(U)` (modelled from the spec, see
`closeActiveSession`) returns `(absent, false)` with no error when `U` has
no active-session pointer; when a pointer exists it deletes only `U`'s
pointer — the session table and every other user's pointer are unchanged —
and returns `(the pointed-to session, true)`; the session itself stays
retrievable by id afterwards. -/
theorem closeActiveSession_spec (st : StoreState) (u : Int) :
    (storeGetActiveSession st u = .error .sessionNotFound →
        closeActiveSession st u = (.ok (none, false), st)) ∧
    (∀ s, storeGetActiveSession st u = .ok s →
        closeActiveSession st u = (.ok (some s, true), clearActiveSession st u) ∧
        (clearActiveSession st u).sessions = st.sessions ∧
        lookupActive (clearActiveSession st u) u = none ∧
        (∀ v, v ≠ u →
          lookupActive (clearActiveSession st u) v = lookupActive st v) ∧
        storeGet (clearActiveSession st u) s.id = .ok s) := by
  constructor
  · intro h
    simp only [closeActiveSession, h]
  · intro s hs
    refine ⟨by simp only [closeActiveSession, hs], rfl,
      lookupActive_clear_self st u,
      fun v hv => lookupActive_clear_other st u v hv, ?_⟩
    exact storeGet_of_storeGetActiveSession st u s hs

/-- Witness for C7: closing user 1's pointer in `exStore` returns `exS1`
with `true`, clears only that pointer, and `exS1` remains retrievable. -/
theorem closeActiveSession_spec_witness :
    closeActiveSession exStore 1 =
      (.ok (some exS1, true), clearActiveSession exStore 1) ∧
    (clearActiveSession exStore 1).sessions = exStore.sessions ∧
    lookupActive (clearActiveSession exStore 1) 1 = none ∧
    (∀ v, v ≠ 1 →
      lookupActive (clearActiveSession exStore 1) v = lookupActive exStore v) ∧
    storeGet (clearActiveSession exStore 1) exS1.id = .ok exS1 :=
  (closeActiveSession_spec exStore 1).2 exS1 (by decide)

theorem findSession_map_update (rows : List Session) (u old : Session)
    (h : findSession rows u.id = some old) :
    findSession (rows.map (fun t =>
      if t.id = u.id then
        { t with title := u.title, updatedAt := u.updatedAt,
                 lastMessage := u.lastMessage }
      else t)) u.id =
      some { old with
        title := u.title
        updatedAt := u.updatedAt
        lastMessage := u.lastMessage } := by
  induction rows with
  | nil => simp [findSession] at h
  | cons r rows ih =>
    unfold findSession at h ⊢
    by_cases hr : r.id = u.id
    · rw [List.find?_cons_of_pos _ (by simpa using hr)] at h
      injection h with h2
      subst h2
      rw [List.map_cons, if_pos hr, List.find?_cons_of_pos _ (by simpa using hr)]
    · rw [List.find?_cons_of_neg _ (by simpa using hr)] at h
      rw [List.map_cons, if_neg hr,
        List.find?_cons_of_neg _ (by simpa using hr)]
      exact ih h

/-- C6 counterexample: `exS1` is stored with `updatedAt = 5`; calling
`Store.Update` with a stale `updatedAt = 3` succeeds and leaves the stored
value at 3, i.e. the store does regress `updatedAt`. -/
theorem storeUpdate_regression_counterexample :
    (findSession exStore.sessions ['a']).map Session.updatedAt = some 5 ∧
    (match storeUpdate exStore { exS1 with updatedAt := 3 } with
      | .ok st2 => (findSession st2.sessions ['a']).map Session.updatedAt
      | .error _ => none) = some 3 ∧
    ¬ (5 : Nat) ≤ 3 := by decide

/-- C6 amended: `Store.Update` writes the caller-supplied `updatedAt`
verbatim (the SQL `UPDATE` sets `updated_at = ?`), so successive stored
values are non-decreasing exactly when callers supply non-decreasing
values: under the hypothesis that the supplied value is ≥ the stored one,
the stored `updatedAt` does not regress. -/
theorem storeUpdate_stores_supplied_updatedAt (st : StoreState)
    (u old : Session) (hold : findSession st.sessions u.id = some old)
    (hmono : old.updatedAt ≤ u.updatedAt) :
    ∃ st2, storeUpdate st u = .ok st2 ∧
      ∃ s2, findSession st2.sessions u.id = some s2 ∧
        s2.updatedAt = u.updatedAt ∧ old.updatedAt ≤ s2.updatedAt := by
  have hany : st.sessions.any (fun t => t.id = u.id) = true := by
    rw [List.any_eq_true]
    exact ⟨old, List.mem_of_find?_eq_some hold,
      by simpa using List.find?_some hold⟩
  refine ⟨{ st with sessions := st.sessions.map (fun t =>
      if t.id = u.id then
        { t with title := u.title, updatedAt := u.updatedAt,
                 lastMessage := u.lastMessage }
      else t) }, by simp [storeUpdate, hany], ?_⟩
  exact ⟨_, findSession_map_update st.sessions u old hold, rfl, hmono⟩

/-- Witness for the amended C6: updating `exS1` with `updatedAt = 7 ≥ 5`
stores exactly 7, which does not regress the previous value 5. -/
theorem storeUpdate_stores_supplied_updatedAt_witness :
    ∃ st2, storeUpdate exStore { exS1 with updatedAt := 7 } = .ok st2 ∧
      ∃ s2, findSession st2.sessions ({ exS1 with updatedAt := 7 } : Session).id
          = some s2 ∧
        s2.updatedAt = ({ exS1 with updatedAt := 7 } : Session).updatedAt ∧
        exS1.updatedAt ≤ s2.updatedAt :=
  storeUpdate_stores_supplied_updatedAt exStore { exS1 with updatedAt := 7 }
    exS1 (by decide) (by decide)

theorem errsIs_refl (e : GoError) : errsIs e e = true := by
  unfold errsIs
  simp

theorem errsIs_wrapped (m : Str) (e : GoError) :
    errsIs (.wrapped m e) e = true := by
  unfold errsIs
  simp [errsIs_refl]

/-- C8 counterexample: `SwitchSession` on a nonexistent id does not surface
the `NotFound` sentinel unchanged — it returns it wrapped in
`"failed to get session: %w"` context (still matched by `errors.Is`). -/
theorem switchSession_wraps_notFound_counterexample :
    (switchSession exStore 1 ['x']).1 ≠ .error .sessionNotFound ∧
    (switchSession exStore 1 ['x']).1 =
      .error (.wrapped "failed to get session".toList .sessionNotFound) ∧
    errsIs (.wrapped "failed to get session".toList .sessionNotFound)
      .sessionNotFound = true := by decide

/-- C8 amended: the Manager returns `Unauthorized` to its caller unchanged,
while `NotFound` and every other failure of `Store.Get` come back wrapped
with the operation context `"failed to get session"` — still matchable by
`errors.Is` through the `%w` chain, but not the bare sentinel value. -/
theorem manager_error_propagation (st : StoreState) (u : Int) (sid : Str) :
    (∀ e, storeGet st sid = .error e →
        (switchSession st u sid).1 =
          .error (.wrapped "failed to get session".toList e) ∧
        errsIs (.wrapped "failed to get session".toList e) e = true) ∧
    (∀ s, storeGet st sid = .ok s → s.userID ≠ u →
        switchSession st u sid = (.error .unauthorized, st)) := by
  constructor
  · intro e he
    exact ⟨by simp only [switchSession, he], errsIs_wrapped _ e⟩
  · intro s hs hneq
    simp only [switchSession, hs, if_pos hneq]

/-- Witness for the amended C8: looking up the absent id `x` surfaces the
wrapped `NotFound`, and user 1 opening user 2's session gets the bare
`Unauthorized`. -/
theorem manager_error_propagation_witness :
    ((switchSession exStore 1 ['x']).1 =
        .error (.wrapped "failed to get session".toList .sessionNotFound) ∧
      errsIs (.wrapped "failed to get session".toList .sessionNotFound)
        .sessionNotFound = true) ∧
    switchSession exStore 1 ['c'] = (.error .unauthorized, exStore) :=
  ⟨(manager_error_propagation exStore 1 ['x']).1 .sessionNotFound (by decide),
    (manager_error_propagation exStore 1 ['c']).2 exS3 (by decide) (by decide)⟩

theorem utf8Size_digitChar (d : Nat) : utf8Size (digitChar d) = 1 := by
  unfold digitChar
  split <;> decide

theorem byteLen_append (a b : Str) :
    byteLen (a ++ b) = byteLen a + byteLen b := by
  unfold byteLen
  rw [List.map_append, List.sum_append]

theorem byteLen_single_digit (n : Nat) : byteLen [digitChar n] = 1 := by
  simp [byteLen, utf8Size_digitChar]

theorem byteLen_natDigitChars_le (k : Nat) :
    ∀ n, n < 10 ^ (k + 1) → byteLen (natDigitChars n) ≤ k + 1 := by
  induction k with
  | zero =>
    intro n hn
    unfold natDigitChars
    rw [if_pos (by omega : n < 10)]
    rw [byteLen_single_digit]
  | succ k ih =>
    intro n hn
    unfold natDigitChars
    by_cases h10 : n < 10
    · rw [if_pos h10, byteLen_single_digit]
      omega
    · rw [if_neg h10, byteLen_append, byteLen_single_digit]
      have hdiv : n / 10 < 10 ^ (k + 1) := by
        rw [Nat.div_lt_iff_lt_mul (by omega)]
        calc n < 10 ^ (k + 1 + 1) := hn
        _ = 10 ^ (k + 1) * 10 := by rw [pow_succ]
      have := ih (n / 10) hdiv
      omega

theorem byteLen_intRepr_le (p : Int) (h0 : 0 ≤ p) (h1 : p ≤ 10000000) :
    byteLen (intRepr p) ≤ 8 := by
  unfold intRepr
  rw [if_neg (by omega)]
  have hpow : (10 : Nat) ^ 8 = 100000000 := by norm_num
  have hlt : p.toNat < 10 ^ (7 + 1) := by
    rw [show (7 : Nat) + 1 = 8 from rfl, hpow]
    omega
  exact byteLen_natDigitChars_le 7 p.toNat hlt

/-- C9: for canonical 36-byte session ids and page offsets in `[0, 10^7]`,
every callback action string `buildSessionKeyboard` attaches to a button —
the session-open encoding `open_s_{id}` and the page-navigation encoding
`page_sessions_{offset}` — is at most 64 bytes long. -/
theorem keyboard_callback_byte_bound (sessions : List Session)
    (offset sessionsPerPage : Int) (hasPrev hasNext : Bool) (now : Nat)
    (hids : ∀ s ∈ sessions, byteLen s.id = 36)
    (hoff : 0 ≤ offset) (hpp : 0 ≤ sessionsPerPage)
    (hbound : offset + sessionsPerPage ≤ 10000000) :
    ∀ row ∈ buildSessionKeyboard sessions offset hasPrev hasNext
        sessionsPerPage now,
      ∀ b ∈ row, byteLen b.callbackData ≤ 64 := by
  have hnav : ∀ p : Int, 0 ≤ p → p ≤ 10000000 →
      byteLen ("page_sessions_".toList ++ intRepr p) ≤ 64 := by
    intro p h0 h1
    rw [byteLen_append]
    have h14 : byteLen "page_sessions_".toList = 14 := by decide
    have h8 := byteLen_intRepr_le p h0 h1
    omega
  intro row hrow b hb
  unfold buildSessionKeyboard at hrow
  rw [List.mem_append, List.mem_append] at hrow
  rcases hrow with (hrow | hrow) | hrow
  · cases hasPrev with
    | false => simp at hrow
    | true =>
      simp only [if_pos] at hrow
      rw [List.mem_singleton] at hrow
      subst hrow
      rw [List.mem_singleton] at hb
      subst hb
      apply hnav
      · split_ifs <;> omega
      · split_ifs <;> omega
  · rw [List.mem_map] at hrow
    obtain ⟨s, hs, rfl⟩ := hrow
    rw [List.mem_singleton] at hb
    subst hb
    rw [byteLen_append]
    have h7 : byteLen "open_s_".toList = 7 := by decide
    have h36 := hids s hs
    omega
  · cases hasNext with
    | false => simp at hrow
    | true =>
      simp only [if_pos] at hrow
      rw [List.mem_singleton] at hrow
      subst hrow
      rw [List.mem_singleton] at hb
      subst hb
      exact hnav _ (by omega) hbound

/-- Witness for C9: on the concrete one-session page with both navigation
buttons (offset 6, page size 6), the session-open callback of `exS4`'s
button is within the 64-byte budget. -/
theorem keyboard_callback_byte_bound_witness :
    byteLen ("open_s_".toList ++ exS4.id) ≤ 64 :=
  keyboard_callback_byte_bound [exS4] 6 6 true true 0
    (by decide) (by decide) (by decide) (by decide)
    [{ text := formatSessionButton 0 exS4
       callbackData := "open_s_".toList ++ exS4.id }]
    (by decide)
    { text := formatSessionButton 0 exS4
      callbackData := "open_s_".toList ++ exS4.id }
    (by decide)

theorem findSession_append_left (rows extra : List Session) (i : Str)
    (r : Session) (h : findSession rows i = some r) :
    findSession (rows ++ extra) i = some r := by
  unfold findSession at h ⊢
  rw [List.find?_append, h]
  rfl

theorem storeCreate_ok_sessions (st : StoreState) (s : Session)
    (st1 : StoreState) (h : storeCreate st s = .ok st1) :
    st1.sessions = st.sessions ++ [s] ∧ st1.active = st.active := by
  unfold storeCreate at h
  by_cases hc : st.sessions.any (fun t => t.id = s.id)
  · rw [if_pos hc] at h
    exact Except.noConfusion h
  · rw [if_neg hc] at h
    injection h with h2
    subst h2
    exact ⟨rfl, rfl⟩

/-- C10: no Manager operation reachable from the public handler surface
ever rewrites a stored session record (`Store.Update` is never invoked):
after `SwitchSession`, `CreateSession`, `GetOrCreateActiveSession` or
`CloseActiveSession`, every session id stored before still maps to the very
same record — title, `lastMessage` and `updatedAt` included — and
`ListSessions` performs no write at all (it returns no state).  In
particular, routing a new text message to an existing active session
through `GetOrCreateActiveSession` leaves the stored record byte-for-byte
unchanged. -/
theorem manager_preserves_existing_sessions (st : StoreState) (u : Int)
    (sid fid clock msg : Str) (now : Nat) (i : Str) (r : Session)
    (h : findSession st.sessions i = some r) :
    findSession ((switchSession st u sid).2).sessions i = some r ∧
    findSession ((createSession st fid clock now u msg).2).sessions i =
      some r ∧
    findSession ((getOrCreateActiveSession st fid clock now u msg).2).sessions
      i = some r ∧
    findSession ((closeActiveSession st u).2).sessions i = some r := by
  have hcreate :
      findSession ((createSession st fid clock now u msg).2).sessions i =
        some r := by
    cases hc : storeCreate st (newSession fid clock now u msg) with
    | error e =>
      simp only [createSession, hc]
      exact h
    | ok st1 =>
      obtain ⟨hs, -⟩ := storeCreate_ok_sessions st _ st1 hc
      simp only [createSession, hc]
      rw [sessions_setActiveSession, hs]
      exact findSession_append_left st.sessions _ i r h
  refine ⟨?_, hcreate, ?_, ?_⟩
  · cases hg : storeGet st sid with
    | error e =>
      simp only [switchSession, hg]
      exact h
    | ok s =>
      simp only [switchSession, hg]
      by_cases ho : s.userID ≠ u
      · rw [if_pos ho]
        exact h
      · rw [if_neg ho, sessions_setActiveSession]
        exact h
  · cases hg : storeGetActiveSession st u with
    | ok s =>
      simp only [getOrCreateActiveSession, hg]
      exact h
    | error e =>
      simp only [getOrCreateActiveSession, hg]
      exact hcreate
  · cases hg : storeGetActiveSession st u with
    | error e =>
      cases e <;> simp only [closeActiveSession, hg] <;> exact h
    | ok s =>
      simp only [closeActiveSession, hg]
      exact h

/-- Witness for C10: in `exStore`, session `a` is stored unchanged across a
switch, a create, a get-or-create and a close. -/
theorem manager_preserves_existing_sessions_witness :
    findSession ((switchSession exStore 1 ['b']).2).sessions ['a'] =
      some exS1 ∧
    findSession ((createSession exStore ['z'] ['1'] 10 1 ['h']).2).sessions
      ['a'] = some exS1 ∧
    findSession
      ((getOrCreateActiveSession exStore ['z'] ['1'] 10 1 ['h']).2).sessions
      ['a'] = some exS1 ∧
    findSession ((closeActiveSession exStore 1).2).sessions ['a'] =
      some exS1 :=
  manager_preserves_existing_sessions exStore 1 ['b'] ['z'] ['1'] ['h'] 10
    ['a'] exS1 (by decide)

/-- Witness for C4 at the concrete store: user 1's listing contains only
user 1's sessions and is sorted by `updatedAt` descending. -/
theorem listByUser_owner_only_sorted_witness :
    (∀ s ∈ listByUser exStore 1 0 10, s.userID = 1) ∧
      SortedDesc (listByUser exStore 1 0 10) :=
  listByUser_owner_only_sorted exStore 1 0 10
